import Mathlib

/-!
Verification of the `find-knife-brands` pipeline (getBrandWebsite.js):
a shallow embedding of the Query Client (`findBrandWebsite`), Batch Runner
(`processBrands`), Completion Store (`checkExistingResults`, both the full
client's and the credential-less stub's versions), the result serialization
(`saveResults`), and the Interruption Handler (`gracefulShutdown`),
together with proofs of the spec's claims about them.

JavaScript objects are embedded as `JVal` (JSON-style values with ordered
association-list objects); JS property read is `JVal.get` (undefined =
`none`), property assignment is `JObj.set` (replace-in-place or append).
Numbers are embedded as `Int` (the claims under verification do not
depend on float rounding).
-/

set_option autoImplicit false

namespace KnifeBrands

/-- JSON-style dynamic values, embedding the JavaScript values that flow
through the pipeline.  `jobj` keeps fields in insertion order, as JS
objects do. -/
inductive JVal where
  | jnull
  | jbool (b : Bool)
  | jnum (n : Int)
  | jstr (s : String)
  | jarr (elems : List JVal)
  | jobj (fields : List (String × JVal))
  deriving Repr

/-- A JS object: ordered field list. -/
abbrev JObj := List (String × JVal)

namespace JVal

/-- Property read `o[k]` on an object's field list: first binding wins
(field lists built by `JObj.set` have unique keys). -/
def getF (fs : JObj) (k : String) : Option JVal :=
  match fs with
  | [] => none
  | (k', v) :: rest => if k' = k then some v else getF rest k

/-- Property read `v.k`: `undefined` (= `none`) on non-objects, matching
JS property access on primitives (which yields `undefined`). -/
def get (v : JVal) (k : String) : Option JVal :=
  match v with
  | jobj fs => getF fs k
  | _ => none

/-- JS truthiness of a value. -/
def truthy : JVal → Bool
  | jnull => false
  | jbool b => b
  | jnum n => n != 0
  | jstr s => s ≠ ""
  | jarr _ => true
  | jobj _ => true

/-- JS truthiness where `none` stands for `undefined`. -/
def truthyO : Option JVal → Bool
  | none => false
  | some v => truthy v

end JVal

namespace JObj

/-- Property assignment `o[k] = v`: replace the binding in place if the
key exists, else append (JS object field-order semantics). -/
def set (fs : JObj) (k : String) (v : JVal) : JObj :=
  match fs with
  | [] => [(k, v)]
  | (k', v') :: rest => if k' = k then (k, v) :: rest else (k', v') :: set rest k v

theorem getF_set_self (fs : JObj) (k : String) (v : JVal) :
    JVal.getF (set fs k v) k = some v := by
  induction fs with
  | nil => simp [set, JVal.getF]
  | cons hd tl ih =>
    obtain ⟨k', v'⟩ := hd
    by_cases h : k' = k <;> simp [set, JVal.getF, h, ih]

theorem getF_set_other (fs : JObj) (k k' : String) (v : JVal) (hne : k ≠ k') :
    JVal.getF (set fs k v) k' = JVal.getF fs k' := by
  induction fs with
  | nil => simp [set, JVal.getF, hne]
  | cons hd tl ih =>
    obtain ⟨k₀, v₀⟩ := hd
    by_cases h : k₀ = k
    · subst h
      simp [set, JVal.getF, hne]
    · simp [set, JVal.getF, h, ih]

end JObj

/-- `needle` matches at the head of `l`. -/
def matchesAt (needle l : List Char) : Bool :=
  match needle, l with
  | [], _ => true
  | _ :: _, [] => false
  | a :: as, b :: bs => a = b && matchesAt as bs

/-- `needle` occurs somewhere inside `l`. -/
def occursIn (needle l : List Char) : Bool :=
  match l with
  | [] => matchesAt needle []
  | _ :: bs => matchesAt needle l || occursIn needle bs

/-- `needle` occurs as a substring of `haystack` (models JS
`String.prototype.includes`). -/
def strIncludes (haystack needle : String) : Bool :=
  occursIn needle.toList haystack.toList

theorem matchesAt_append (n l : List Char) : matchesAt n (n ++ l) = true := by
  induction n with
  | nil => simp [matchesAt]
  | cons a as ih => simp [matchesAt, ih]

theorem occursIn_append_left (n l₁ l₂ : List Char) (h : occursIn n l₂ = true) :
    occursIn n (l₁ ++ l₂) = true := by
  induction l₁ with
  | nil => simpa using h
  | cons b bs ih =>
    cases l₂ with
    | nil => simp only [List.append_nil] at ih ⊢; simp [occursIn, ih]
    | cons c cs => simp [occursIn, ih]

theorem occursIn_self_append (n l : List Char) (hn : n ≠ []) :
    occursIn n (n ++ l) = true := by
  cases n with
  | nil => exact absurd rfl hn
  | cons a as =>
    have h := matchesAt_append (a :: as) l
    simp only [occursIn]
    simp only [List.cons_append] at h
    simp [h]

/-- First index of character `c` in a character list. -/
def firstIdx (c : Char) : List Char → Option Nat
  | [] => none
  | x :: xs =>
    if x = c then some 0
    else (firstIdx c xs).map (· + 1)

/-- Last index of character `c` in a character list. -/
def lastIdx (c : Char) : List Char → Option Nat
  | [] => none
  | x :: xs =>
    match lastIdx c xs with
    | some i => some (i + 1)
    | none => if x = c then some 0 else none

/-- Characters replaced by `_` when building filenames, from
`modelKey.replace(/[\/\\:*?"<>|]/g, '_')`. -/
def isFsUnsafe (c : Char) : Bool :=
  c = '/' || c = '\\' || c = ':' || c = '*' || c = '?' || c = '"' || c = '<' || c = '>' || c = '|'

/-- Filesystem-safe model key, from `this.modelKey.replace(/[\/\\:*?"<>|]/g, '_')`. -/
def safeModelKey (mk : String) : String :=
  String.mk (mk.toList.map fun c => if isFsUnsafe c then '_' else c)

/-- Filename timestamp, from `new Date().toISOString().replace(/[:.]/g, '-')`. -/
def tsSafe (ts : String) : String :=
  String.mk (ts.toList.map fun c => if c = ':' || c = '.' then '-' else c)

/-- JS `content.substring(0, 200)`. -/
def jsSubstring200 (s : String) : String :=
  String.mk (s.toList.take 200)

/-- The candidate the code extracts with `content.match(/\x7b[\s\S]*\x7d/)`:
the greedy regex matches from the first `{` that has some `}` after it,
through the LAST `}` of the whole string; this equals the substring from
the first `{` to the last `}` when the former precedes the latter, and
there is no match otherwise. -/
def extractJsonCandidate (s : String) : Option String :=
  let cs := s.toList
  match firstIdx '{' cs, lastIdx '}' cs with
  | some i, some j => if i < j then some (String.mk ((cs.drop i).take (j + 1 - i))) else none
  | _, _ => none

/-! ### A small JSON parser, modelling `JSON.parse`

Used for the strings that `findBrandWebsite` feeds to `JSON.parse`.  It
covers the fragment exercised here: `null`, booleans, integers, strings
with the common escapes, arrays and objects (later duplicate keys
overwrite earlier ones, as in `JSON.parse`); fractional/exponent numbers
and `\u` escapes are conservatively rejected.  A successfully parsed
value followed by non-whitespace is a parse error, as in `JSON.parse`. -/

/-- JSON whitespace. -/
def isJsonWs (c : Char) : Bool :=
  c = ' ' || c = '\n' || c = '\t' || c = '\r'

/-- Drop leading JSON whitespace. -/
def skipWs : List Char → List Char
  | [] => []
  | c :: cs => if isJsonWs c then skipWs cs else c :: cs

/-- Parse the remainder of a string literal (after the opening quote). -/
def parseStrLit (acc : List Char) : List Char → Option (String × List Char)
  | [] => none
  | '"' :: cs => some (String.mk acc.reverse, cs)
  | '\\' :: c :: cs =>
    let e : Option Char :=
      if c = '"' then some '"'
      else if c = '\\' then some '\\'
      else if c = '/' then some '/'
      else if c = 'n' then some '\n'
      else if c = 't' then some '\t'
      else if c = 'r' then some '\r'
      else none
    match e with
    | some ec => parseStrLit (ec :: acc) cs
    | none => none
  | c :: cs => if c = '\\' then none else parseStrLit (c :: acc) cs

/-- Consume a literal; `none` if it does not match. -/
def dropLit (lit : List Char) (cs : List Char) : Option (List Char) :=
  match lit, cs with
  | [], rest => some rest
  | a :: as, b :: bs => if a = b then dropLit as bs else none
  | _ :: _, [] => none

/-- Consume a run of digits, accumulating their value. -/
def parseDigits (acc : Int) (seen : Bool) : List Char → (Int × Bool × List Char)
  | [] => (acc, seen, [])
  | c :: cs =>
    if c.isDigit then parseDigits (acc * 10 + (c.toNat - '0'.toNat : Nat)) true cs
    else (acc, seen, c :: cs)

mutual

/-- Parse one JSON value (fuel-indexed recursive descent). -/
def parseVal : Nat → List Char → Option (JVal × List Char)
  | 0, _ => none
  | fuel + 1, cs =>
    match skipWs cs with
    | [] => none
    | c :: rest =>
      if c = '"' then (parseStrLit [] rest).map fun p => (JVal.jstr p.1, p.2)
      else if c = '{' then parseObjFields fuel rest []
      else if c = '[' then parseArrElems fuel rest []
      else if c = 't' then (dropLit ['r', 'u', 'e'] rest).map fun r => (JVal.jbool true, r)
      else if c = 'f' then (dropLit ['a', 'l', 's', 'e'] rest).map fun r => (JVal.jbool false, r)
      else if c = 'n' then (dropLit ['u', 'l', 'l'] rest).map fun r => (JVal.jnull, r)
      else if c = '-' then
        match parseDigits 0 false rest with
        | (n, true, r) =>
          match r with
          | [] => some (JVal.jnum (-n), [])
          | d :: _ => if d = '.' || d = 'e' || d = 'E' then none else some (JVal.jnum (-n), r)
        | (_, false, _) => none
      else if c.isDigit then
        match parseDigits 0 false (c :: rest) with
        | (n, true, r) =>
          match r with
          | [] => some (JVal.jnum n, [])
          | d :: _ => if d = '.' || d = 'e' || d = 'E' then none else some (JVal.jnum n, r)
        | (_, false, _) => none
      else none

/-- Parse object fields after `{` (or after a comma), accumulating into
`acc`; duplicate keys overwrite, as `JSON.parse` does. -/
def parseObjFields : Nat → List Char → JObj → Option (JVal × List Char)
  | 0, _, _ => none
  | fuel + 1, cs, acc =>
    match skipWs cs with
    | [] => none
    | c :: rest =>
      if c = '}' then
        if acc.isEmpty then some (JVal.jobj [], rest) else none
      else if c = '"' then
        match parseStrLit [] rest with
        | none => none
        | some (k, r1) =>
          match skipWs r1 with
          | ':' :: r2 =>
            match parseVal fuel r2 with
            | none => none
            | some (v, r3) =>
              match skipWs r3 with
              | ',' :: r4 => parseObjFields fuel r4 (JObj.set acc k v)
              | '}' :: r4 => some (JVal.jobj (JObj.set acc k v), r4)
              | _ => none
          | _ => none
      else none

/-- Parse array elements after `[` (or after a comma). -/
def parseArrElems : Nat → List Char → List JVal → Option (JVal × List Char)
  | 0, _, _ => none
  | fuel + 1, cs, acc =>
    match skipWs cs with
    | [] => none
    | c :: rest =>
      if c = ']' then
        if acc.isEmpty then some (JVal.jarr [], rest) else none
      else
        match parseVal fuel (c :: rest) with
        | none => none
        | some (v, r1) =>
          match skipWs r1 with
          | ',' :: r2 => parseArrElems fuel r2 (acc ++ [v])
          | ']' :: r2 => some (JVal.jarr (acc ++ [v]), r2)
          | _ => none

end

/-- `JSON.parse`, modelled on the fragment described above. -/
def jsonParse (s : String) : Option JVal :=
  match parseVal (s.length + 1) s.toList with
  | some (v, rest) => if skipWs rest = [] then some v else none
  | none => none

/-- `JSON.parse` of a string that must denote an object (the extracted
candidate always starts with `{`, so `JSON.parse` either fails or yields
an object). -/
def jsonParseObj (s : String) : Option JObj :=
  match jsonParse s with
  | some (JVal.jobj fs) => some fs
  | _ => none

/-! ### Query Client (`BrandWebsiteFinder.findBrandWebsite`) -/

/-- Per-request token usage delta (`tokensUsed` in the source). -/
structure TokenDelta where
  prompt_tokens : Int
  completion_tokens : Int
  total_tokens : Int
  cost : Int
  deriving Repr, DecidableEq

/-- The JS object `tokensUsed` as stored into `token_usage` of a record. -/
def TokenDelta.toJVal (d : TokenDelta) : JVal :=
  .jobj [("prompt_tokens", .jnum d.prompt_tokens),
         ("completion_tokens", .jnum d.completion_tokens),
         ("total_tokens", .jnum d.total_tokens),
         ("cost", .jnum d.cost)]

/-- One entry of `this.tokenUsage.brandTokens`:
`{brand_name: brandName, ...tokensUsed}`. -/
structure BrandTokenEntry where
  brand_name : String
  tokens : TokenDelta
  deriving Repr, DecidableEq

/-- The finder's cumulative `this.tokenUsage` counters.  Counts and costs
are embedded as `Int` (the claims proved here do not depend on float
rounding of the JS numbers). -/
structure TokenUsageState where
  totalPromptTokens : Int
  totalCompletionTokens : Int
  totalTokens : Int
  totalCost : Int
  requestCount : Nat
  brandTokens : List BrandTokenEntry
  deriving Repr, DecidableEq

/-- The counters as initialized by the `BrandWebsiteFinder` constructor. -/
def initUsage : TokenUsageState :=
  { totalPromptTokens := 0, totalCompletionTokens := 0, totalTokens := 0,
    totalCost := 0, requestCount := 0, brandTokens := [] }

/-- Outcome of one `fetch` to the chat-completions endpoint, as observed
by `makeOpenRouterRequest`.  `fetchFail msg` is a rejection of `fetch`
itself or of `response.json()` (timeout abort, transport failure, body
decode failure), carrying the thrown error's message; `notOk` is a
completed response with `!response.ok`; `ok` is a 2xx response whose
body parsed to the given JSON value. -/
inductive FetchResult where
  | fetchFail (msg : String)
  | notOk (status : Nat) (errorText : String)
  | ok (responseData : JVal)

/-- `usage.<k> || 0`: the field's numeric value, `0` when the field is
missing, null or zero (non-numeric truthy usage fields are not produced
by the backend and are modelled as 0). -/
def numOr0 (v : Option JVal) : Int :=
  match v with
  | some (JVal.jnum n) => n
  | _ => 0

/-- `makeOpenRouterRequest`: throws (as `Except.error` carrying the JS
error message) on fetch rejection or non-ok status; on success tracks
token usage if the response carries a truthy `usage` and returns the
response data. -/
def makeOpenRouterRequest (fr : FetchResult) (st : TokenUsageState) :
    Except String (JVal × TokenUsageState) :=
  match fr with
  | .fetchFail msg => .error msg
  | .notOk status errorText =>
    .error ("OpenRouter API error: " ++ toString status ++ " - " ++ errorText)
  | .ok d =>
    let usage := d.get "usage"
    let st' :=
      if JVal.truthyO usage then
        { st with
          totalPromptTokens := st.totalPromptTokens + numOr0 (usage.bind (·.get "prompt_tokens")),
          totalCompletionTokens :=
            st.totalCompletionTokens + numOr0 (usage.bind (·.get "completion_tokens")),
          totalTokens := st.totalTokens + numOr0 (usage.bind (·.get "total_tokens")),
          totalCost := st.totalCost + numOr0 (usage.bind (·.get "cost")),
          requestCount := st.requestCount + 1 }
      else st
    .ok (d, st')

/-- JS `v[0]` where `v` is the value of `response.choices`: throws a
`TypeError` on `null`, indexes arrays, reads field `"0"` of objects,
takes the first character of strings, and yields `undefined` on other
primitives. -/
def index0 (v : JVal) : Except String (Option JVal) :=
  match v with
  | .jnull => .error "Cannot read properties of null (reading 0)"
  | .jarr xs => .ok xs.head?
  | .jobj fs => .ok (JVal.getF fs "0")
  | .jstr s => .ok (s.toList.head?.map fun c => JVal.jstr (String.mk [c]))
  | .jbool _ => .ok none
  | .jnum _ => .ok none

/-- JS optional chaining `x?.k`: `undefined` when `x` is nullish, plain
property read otherwise. -/
def optChain (x : Option JVal) (k : String) : Option JVal :=
  match x with
  | none => none
  | some JVal.jnull => none
  | some v => v.get k

/-- `response.choices[0]?.message?.content` — throws a `TypeError` when
`choices` is missing or null. -/
def getContent (d : JVal) : Except String (Option JVal) :=
  match d.get "choices" with
  | none => .error "Cannot read properties of undefined (reading 0)"
  | some v => (index0 v).map fun x => optChain (optChain x "message") "content"

/-- Error classification of the catch block, by inspecting the thrown
message. -/
def classifyError (msg : String) : String :=
  if strIncludes msg "OpenRouter API error" then "api_error"
  else if strIncludes msg "timeout" || strIncludes msg "network" then "network_error"
  else if strIncludes msg "No content in response" then "model_error"
  else if strIncludes msg "fetch" then "connection_error"
  else "unknown_error"

/-- The error taxonomy of §7 of the spec. -/
def errorTaxonomy : List String :=
  ["api_error", "network_error", "model_error", "connection_error", "parse_error", "unknown_error"]

/-- JS `errorType.replace('_', ' ')`: replace the first underscore. -/
def replaceFirstUnderscore : List Char → List Char
  | [] => []
  | c :: cs => if c = '_' then ' ' :: cs else c :: replaceFirstUnderscore cs

/-- The `notes` text of an error record:
`errorType.replace('_', ' ').toUpperCase() + ': ' + error.message`. -/
def errorNotes (errorType msg : String) : String :=
  (String.mk (replaceFirstUnderscore errorType.toList)).toUpper ++ ": " ++ msg

/-- The failure Result Record built in the catch block of
`findBrandWebsite`. -/
def errorRecord (brandName modelKey now msg : String) : JVal :=
  let errorType := classifyError msg
  .jobj [("brand_name", .jstr brandName),
         ("website_url", .jnull),
         ("description", .jnull),
         ("additional_info",
           .jobj [("founded", .jnull), ("location", .jnull), ("specialties", .jnull)]),
         ("search_confidence", .jstr "low"),
         ("notes", .jstr (errorNotes errorType msg)),
         ("model_used", .jstr modelKey),
         ("timestamp", .jstr now),
         ("raw_response", .jnull),
         ("error_type", .jstr errorType),
         ("success", .jbool false),
         ("token_usage",
           .jobj [("prompt_tokens", .jnum 0), ("completion_tokens", .jnum 0),
                  ("total_tokens", .jnum 0), ("cost", .jnum 0)])]

/-- The parse-fallback Result Record (`Could not parse JSON response`). -/
def fallbackRecord (brandName modelKey now content : String) (tokensUsed : TokenDelta) : JVal :=
  .jobj [("brand_name", .jstr brandName),
         ("website_url", .jnull),
         ("description", .jstr (jsSubstring200 content ++ "...")),
         ("additional_info",
           .jobj [("founded", .jnull), ("location", .jnull), ("specialties", .jnull)]),
         ("search_confidence", .jstr "low"),
         ("notes", .jstr "Could not parse structured response from model"),
         ("model_used", .jstr modelKey),
         ("timestamp", .jstr now),
         ("raw_response", .jstr content),
         ("error_type", .jstr "parse_error"),
         ("success", .jbool false),
         ("token_usage", tokensUsed.toJVal)]

/-- The parse-success Result Record: the parsed backend object with the
six pipeline fields assigned over it, in source order. -/
def successRecord (fs : JObj) (modelKey now content : String) (tokensUsed : TokenDelta) : JVal :=
  .jobj (JObj.set (JObj.set (JObj.set (JObj.set (JObj.set (JObj.set fs
    "model_used" (.jstr modelKey))
    "timestamp" (.jstr now))
    "raw_response" (.jstr content))
    "error_type" .jnull)
    "success" (.jbool true))
    "token_usage" tokensUsed.toJVal)

/-- Which control path `findBrandWebsite` took (an embedding-side tag;
the record/state components are exactly what the source computes). -/
inductive QueryPath where
  | parsedOk (content : String) (fs : JObj) (delta : TokenDelta)
  | fallback (content : String) (delta : TokenDelta)
  | errored (msg : String)

/-- `findBrandWebsite`, instrumented with the path taken.  `P` is the
`JSON.parse` oracle applied to the extracted candidate (which starts
with `{`, so `JSON.parse` either fails or yields an object); `now` is
the ISO timestamp `new Date().toISOString()` of this call. -/
def findBrandWebsiteAux (P : String → Option JObj) (modelKey brandName : String)
    (fr : FetchResult) (st : TokenUsageState) (now : String) :
    QueryPath × JVal × TokenUsageState :=
  match makeOpenRouterRequest fr st with
  | .error msg => (.errored msg, errorRecord brandName modelKey now msg, st)
  | .ok (d, st1) =>
    match getContent d with
    | .error msg => (.errored msg, errorRecord brandName modelKey now msg, st1)
    | .ok content? =>
      let tokensUsed : TokenDelta :=
        { prompt_tokens := st1.totalPromptTokens - st.totalPromptTokens,
          completion_tokens := st1.totalCompletionTokens - st.totalCompletionTokens,
          total_tokens := st1.totalTokens - st.totalTokens,
          cost := st1.totalCost - st.totalCost }
      let st2 := { st1 with brandTokens := st1.brandTokens ++ [{ brand_name := brandName, tokens := tokensUsed }] }
      if JVal.truthyO content? then
        match content? with
        | some (JVal.jstr content) =>
          match extractJsonCandidate content with
          | some cand =>
            match P cand with
            | some fs =>
              (.parsedOk content fs tokensUsed,
               successRecord fs modelKey now content tokensUsed, st2)
            | none =>
              (.fallback content tokensUsed,
               fallbackRecord brandName modelKey now content tokensUsed, st2)
          | none =>
            (.fallback content tokensUsed,
             fallbackRecord brandName modelKey now content tokensUsed, st2)
        | _ =>
          -- truthy non-string content: `content.match` throws a TypeError
          let msg := "content.match is not a function"
          (.errored msg, errorRecord brandName modelKey now msg, st2)
      else
        -- `if (!content) throw new Error('No content in response from model')`
        let msg := "No content in response from model"
        (.errored msg, errorRecord brandName modelKey now msg, st2)

/-- `findBrandWebsite`: the Result Record and updated finder state. -/
def findBrandWebsite (P : String → Option JObj) (modelKey brandName : String)
    (fr : FetchResult) (st : TokenUsageState) (now : String) : JVal × TokenUsageState :=
  (findBrandWebsiteAux P modelKey brandName fr st now).2

/-! ### Batch Runner (`BrandWebsiteFinder.processBrands`) -/

/-- The per-run environment of the batch loop: the `JSON.parse` oracle,
the model key, and for each loop iteration the backend outcome and the
wall-clock timestamp of that call. -/
structure BatchEnv where
  P : String → Option JObj
  modelKey : String
  fetchAt : Nat → FetchResult
  nowAt : Nat → String

/-- `brands.slice(startIndex, startIndex + count)` (non-negative
arguments). -/
def brandsSlice (brands : List String) (startIndex count : Nat) : List String :=
  (brands.drop startIndex).take count

/-- The `for` loop of `processBrands` over the sliced brand list:
at each iteration boundary the shared `isShuttingDown` flag is consulted
(`flagAt i` is its value at the check before iteration `i`); otherwise
the brand is processed and its Result Record appended. -/
def runLoop (env : BatchEnv) (flagAt : Nat → Bool) :
    Nat → TokenUsageState → List String → List JVal × TokenUsageState
  | _, st, [] => ([], st)
  | i, st, b :: bs =>
    if flagAt i then ([], st)
    else
      let out := findBrandWebsiteAux env.P env.modelKey b (env.fetchAt i) st (env.nowAt i)
      let rest := runLoop env flagAt (i + 1) out.2.2 bs
      (out.2.1 :: rest.1, rest.2)

/-- `processBrands(brands, startIndex, count)`. -/
def processBrands (env : BatchEnv) (flagAt : Nat → Bool) (brands : List String)
    (startIndex count : Nat) (st : TokenUsageState) : List JVal × TokenUsageState :=
  runLoop env flagAt 0 st (brandsSlice brands startIndex count)

/-! ### Completion Store (`checkExistingResults`, full client and stub) -/

/-- A file of the results directory as the Completion Store sees it.
`parsed = some recs` models a file whose JSON parses with `results` an
array of the given objects; `parsed = none` models any failure of the
per-file `try` body (unreadable file, invalid JSON, missing or
non-array `results`, non-object entries making the filter throw) — all
are caught, warned about and skipped. -/
structure MFile where
  name : String
  parsed : Option (List JObj)

/-- `r.success === true && r.website_url` — the qualifying predicate of
both completion checks (note: JS truthiness of `website_url`). -/
def qualifies (r : JObj) : Bool :=
  (match JVal.getF r "success" with
   | some (JVal.jbool true) => true
   | _ => false)
  && JVal.truthyO (JVal.getF r "website_url")

/-- JS `name.startsWith(pre)`. -/
def strStarts (name pre : String) : Bool :=
  matchesAt pre.toList name.toList

/-- JS `name.endsWith(suf)`. -/
def strEnds (name suf : String) : Bool :=
  matchesAt suf.toList.reverse name.toList.reverse

/-- The filename filter: starts with `brand_websites_<safeModelKey>_`,
ends with `.json`, and does not contain `_PARTIAL_`. -/
def isCandidateName (mk name : String) : Bool :=
  strStarts name ("brand_websites_" ++ safeModelKey mk ++ "_")
    && strEnds name ".json"
    && !(strIncludes name "_PARTIAL_")

/-- The best-file fold: strict improvement over the running best count
(initially 0), so the first file attaining the maximum wins and a file
with zero qualifying records never becomes best. -/
def pickBest : List MFile → Option (String × List JObj) → Nat → Option (String × List JObj) × Nat
  | [], best, bestCount => (best, bestCount)
  | f :: fs, best, bestCount =>
    match f.parsed with
    | none => pickBest fs best bestCount
    | some recs =>
      let cnt := (recs.filter qualifies).length
      if bestCount < cnt then pickBest fs (some (f.name, recs)) cnt
      else pickBest fs best bestCount

/-- Outcome of a completion check (console messages are not modelled;
the `filepath`/count fields are, where the source returns them). -/
structure CheckResult where
  hasResults : Bool
  bestFile : Option String
  successfulCount : Option Nat
  totalCount : Option Nat
  deriving Repr, DecidableEq

/-- The full client's `checkExistingResults(count)` over a directory
listing. -/
def checkExistingResults (mk : String) (count : Nat) (dir : List MFile) : CheckResult :=
  let files := dir.filter fun f => isCandidateName mk f.name
  if files.isEmpty then
    { hasResults := false, bestFile := none, successfulCount := none, totalCount := none }
  else
    match pickBest files none 0 with
    | (none, _) =>
      { hasResults := false, bestFile := none, successfulCount := none, totalCount := none }
    | (some (name, recs), _) =>
      let successful := (recs.filter qualifies).length
      let total := recs.length
      if count ≤ successful then
        { hasResults := true, bestFile := some name,
          successfulCount := some successful, totalCount := some total }
      else
        { hasResults := false, bestFile := some name,
          successfulCount := some successful, totalCount := some total }

/-- The credential-less show-mode stub's `checkExistingResults`: same
scan and best-file fold, but reports `hasResults: true` whenever a best
file exists, with no threshold comparison. -/
def minimalCheckExistingResults (mk : String) (dir : List MFile) : CheckResult :=
  let files := dir.filter fun f => isCandidateName mk f.name
  if files.isEmpty then
    { hasResults := false, bestFile := none, successfulCount := none, totalCount := none }
  else
    match pickBest files none 0 with
    | (none, _) =>
      { hasResults := false, bestFile := none, successfulCount := none, totalCount := none }
    | (some (name, recs), _) =>
      { hasResults := true, bestFile := some name,
        successfulCount := some ((recs.filter qualifies).length),
        totalCount := some recs.length }

/-- The maximum qualifying-success count over the parseable candidate
files (0 when there are none) — used to state the claims. -/
def maxQualCount (mk : String) (dir : List MFile) : Nat :=
  ((dir.filter fun f => isCandidateName mk f.name).filterMap (fun f => f.parsed)).foldl
    (fun m recs => max m (recs.filter qualifies).length) 0

/-! ### Run Record serialization (`saveResults` and the partial save)

The derived statistics are embedded exactly as computed, with JS float
formatting abstracted: `success_rate` keeps the exact rational
`successful/total*100` instead of its `toFixed(1)` rendering,
`estimated_cost_usd` the exact `totalCost * 0.000001`, and
`average_cost_per_brand` the 2-decimal rounding of the exact quotient.
`saveResults` (normal completion) and the `gracefulShutdown` handler
each inline this computation in the source; they are translated
separately below so that their agreement is a theorem, not a
definition. -/

/-- `result.success === true` on a persisted record. -/
def isSuccessTrue (r : JVal) : Bool :=
  match r.get "success" with
  | some (JVal.jbool true) => true
  | _ => false

/-- `result.success === false` on a persisted record. -/
def isSuccessFalse (r : JVal) : Bool :=
  match r.get "success" with
  | some (JVal.jbool false) => true
  | _ => false

/-- `result.error_type || 'unknown'` (string-valued error types; a
falsy or non-string field falls back to `'unknown'`). -/
def errKey (r : JVal) : String :=
  match r.get "error_type" with
  | some (JVal.jstr e) => if e = "" then "unknown" else e
  | _ => "unknown"

/-- `errorTypes[errorType] = (errorTypes[errorType] || 0) + 1`. -/
def bumpCount (m : List (String × Nat)) (k : String) : List (String × Nat) :=
  match m with
  | [] => [(k, 1)]
  | (k', n) :: rest => if k' = k then (k', n + 1) :: rest else (k', n) :: bumpCount rest k

/-- The `error_breakdown` map, built over the failed records in order. -/
def errorBreakdown (failed : List JVal) : List (String × Nat) :=
  failed.foldl (fun m r => bumpCount m (errKey r)) []

/-- `r.error_type === 'model_error' || r.error_type === 'api_error'`. -/
def isModelOrApiError (r : JVal) : Bool :=
  match r.get "error_type" with
  | some (JVal.jstr e) => e = "model_error" || e = "api_error"
  | _ => false

/-- JS `Math.round` (half toward +∞). -/
def jsRound (q : ℚ) : Int := Int.floor (q + 1 / 2)

/-- JS `x.toFixed(2)` re-read by `parseFloat`, as an exact rational
(binary-float representation quirks abstracted). -/
def toFixed2 (q : ℚ) : ℚ := (jsRound (q * 100) : ℚ) / 100

/-- The `metadata.token_usage` block of a saved Run Record. -/
structure MetaTokenUsage where
  total_prompt_tokens : Int
  total_completion_tokens : Int
  total_tokens : Int
  total_cost_credits : Int
  estimated_cost_usd : ℚ
  average_tokens_per_brand : Int
  average_cost_per_brand : ℚ
  total_requests : Nat
  per_brand_breakdown : List BrandTokenEntry
  deriving Repr, DecidableEq

/-- The `metadata` block of a saved Run Record. -/
structure RunMeta where
  model_used : String
  model_name : String
  timestamp : String
  total_brands_processed : Nat
  successful_searches : Nat
  failed_searches : Nat
  success_rate : ℚ
  error_breakdown : List (String × Nat)
  model_availability : String
  status : Option String
  token_usage : MetaTokenUsage
  deriving Repr, DecidableEq

/-- A persisted Run Record: metadata plus the ordered results. -/
structure RunRecord where
  metadata : RunMeta
  results : List JVal
  deriving Repr

/-- The filename of a normal-completion save:
`brand_websites_<safeModelKey>_<timestamp>.json`. -/
def saveFilename (mk now : String) : String :=
  "brand_websites_" ++ safeModelKey mk ++ "_" ++ tsSafe now ++ ".json"

/-- The filename of a partial save, with the `_PARTIAL_` marker. -/
def partialFilename (mk now : String) : String :=
  "brand_websites_" ++ safeModelKey mk ++ "_PARTIAL_" ++ tsSafe now ++ ".json"

/-- The Run Record written by `saveResults` on normal completion,
translated from its inlined statistics computation. -/
def saveResultsOutput (mk modelName now : String) (u : TokenUsageState)
    (results : List JVal) : RunRecord :=
  let successful := results.filter isSuccessTrue
  let failed := results.filter isSuccessFalse
  { metadata :=
      { model_used := mk
        model_name := modelName
        timestamp := now
        total_brands_processed := results.length
        successful_searches := successful.length
        failed_searches := failed.length
        success_rate := (successful.length : ℚ) / (results.length : ℚ) * 100
        error_breakdown := errorBreakdown failed
        model_availability :=
          if (failed.filter isModelOrApiError).length = 0 then "working" else "issues_detected"
        status := none
        token_usage :=
          { total_prompt_tokens := u.totalPromptTokens
            total_completion_tokens := u.totalCompletionTokens
            total_tokens := u.totalTokens
            total_cost_credits := u.totalCost
            estimated_cost_usd := (u.totalCost : ℚ) / 1000000
            average_tokens_per_brand := jsRound ((u.totalTokens : ℚ) / (max u.requestCount 1 : ℚ))
            average_cost_per_brand := toFixed2 ((u.totalCost : ℚ) / (max u.requestCount 1 : ℚ))
            total_requests := u.requestCount
            per_brand_breakdown := u.brandTokens } }
    results := results }

/-! ### Interruption Handler (`setupGracefulShutdown` / `gracefulShutdown`) -/

/-- What the handler reads from `currentFinder`. -/
structure FinderInfo where
  modelKey : String
  modelName : String
  tokenUsage : TokenUsageState

/-- The process-wide state the handler operates on: the shared
`isShuttingDown` flag, `currentResults`, `currentFinder`. -/
structure GlobalState where
  isShuttingDown : Bool
  currentResults : List JVal
  currentFinder : Option FinderInfo

/-- What one delivery of SIGINT/SIGTERM does. -/
inductive ShutdownAction where
  | forceExit (code : Nat)
  | savePartialAndExit (filename : String) (record : RunRecord) (code : Nat)
  | exitNoSave (code : Nat)

/-- The Run Record written by the shutdown handler, translated from the
handler's own inlined statistics computation (lines 537–571 of the
source; the `currentFinder.tokenUsage ? … : null` guard is vacuous for
a constructed finder, whose counters are always initialized). -/
def savePartialOutput (f : FinderInfo) (now : String) (results : List JVal) : RunRecord :=
  let successful := results.filter isSuccessTrue
  let failed := results.filter isSuccessFalse
  { metadata :=
      { model_used := f.modelKey
        model_name := f.modelName
        timestamp := now
        total_brands_processed := results.length
        successful_searches := successful.length
        failed_searches := failed.length
        success_rate := (successful.length : ℚ) / (results.length : ℚ) * 100
        error_breakdown := errorBreakdown failed
        model_availability :=
          if (failed.filter isModelOrApiError).length = 0 then "working" else "issues_detected"
        status := some "PARTIAL_RESULTS_DUE_TO_INTERRUPTION"
        token_usage :=
          { total_prompt_tokens := f.tokenUsage.totalPromptTokens
            total_completion_tokens := f.tokenUsage.totalCompletionTokens
            total_tokens := f.tokenUsage.totalTokens
            total_cost_credits := f.tokenUsage.totalCost
            estimated_cost_usd := (f.tokenUsage.totalCost : ℚ) / 1000000
            average_tokens_per_brand :=
              jsRound ((f.tokenUsage.totalTokens : ℚ) / (max f.tokenUsage.requestCount 1 : ℚ))
            average_cost_per_brand :=
              toFixed2 ((f.tokenUsage.totalCost : ℚ) / (max f.tokenUsage.requestCount 1 : ℚ))
            total_requests := f.tokenUsage.requestCount
            per_brand_breakdown := f.tokenUsage.brandTokens } }
    results := results }

/-- One delivery of a termination signal (`gracefulShutdown(signal)`):
a second signal while already shutting down force-exits with code 1; a
first signal sets the flag, then saves the accumulated partial results
(if a finder is registered and at least one result exists) and exits
with code 0, or skips the save and exits 0 otherwise. -/
def gracefulShutdown (g : GlobalState) (now : String) : ShutdownAction × GlobalState :=
  if g.isShuttingDown then (.forceExit 1, g)
  else
    let g' := { g with isShuttingDown := true }
    match g.currentFinder with
    | some f =>
      if 0 < g.currentResults.length then
        (.savePartialAndExit (partialFilename f.modelKey now)
          (savePartialOutput f now g.currentResults) 0, g')
      else (.exitNoSave 0, g')
    | none => (.exitNoSave 0, g')

/-! ### A whole run with one signal delivery

Node delivers a signal callback as soon as the event loop is free, i.e.
at an `await` point; the only awaits of the batch loop are the backend
request and the inter-request delay.  The handler runs synchronously
(sets the flag, saves, `process.exit`s), so the process never returns
to the loop after a first signal. -/

/-- Where the single termination signal is delivered:
during the awaited request of slice index `k`, or during the delay that
follows iteration `k`. -/
inductive SigPoint where
  | duringRequest (k : Nat)
  | duringDelay (k : Nat)

/-- The batch loop run without any observed interruption flag. -/
def runPrefix (env : BatchEnv) (st : TokenUsageState) (l : List String) :
    List JVal × TokenUsageState :=
  runLoop env (fun _ => false) 0 st l

/-- Observable outcome of a run: the partial save (if the handler wrote
one), the normal-completion save (if `main` reached it), and the process
exit code. -/
structure RunOutcome where
  partialSave : Option (String × RunRecord)
  finalSave : Option (String × RunRecord)
  exitCode : Nat

/-- A full, uninterrupted run: `processBrands` then `saveResults`, with
the final exit code of `main` (`1` iff every search failed). -/
def fullRunOutcome (env : BatchEnv) (modelName : String) (brands : List String)
    (startIndex count : Nat) (st : TokenUsageState) (nowFinal : String) : RunOutcome :=
  let out := runPrefix env st (brandsSlice brands startIndex count)
  let results := out.1
  let failed := results.filter isSuccessFalse
  { partialSave := none
    finalSave := some (saveFilename env.modelKey nowFinal,
      saveResultsOutput env.modelKey modelName nowFinal out.2 results)
    exitCode := if failed.length = results.length then 1 else 0 }

/-- A run during which at most one termination signal arrives, at the
given await point.  When the signal arrives during the awaited request
of iteration `k`, exactly the records of iterations `0..k-1` have been
completed and published to `currentResults`; the handler saves those
and exits — the in-flight request is abandoned.  When it arrives during
the delay after iteration `k`, records `0..k` are published.  A signal
index beyond the slice cannot occur while the loop runs; it is modelled
as no signal. -/
def runWithSignal (env : BatchEnv) (modelName : String) (brands : List String)
    (startIndex count : Nat) (st : TokenUsageState) (sig : Option SigPoint)
    (nowSig nowFinal : String) : RunOutcome :=
  let slice := brandsSlice brands startIndex count
  let handlerAt (completed : List JVal) (stAt : TokenUsageState) : RunOutcome :=
    let g : GlobalState :=
      { isShuttingDown := false, currentResults := completed,
        currentFinder := some { modelKey := env.modelKey, modelName := modelName,
                                tokenUsage := stAt } }
    match (gracefulShutdown g nowSig).1 with
    | .savePartialAndExit fn rec code =>
      { partialSave := some (fn, rec), finalSave := none, exitCode := code }
    | .exitNoSave code => { partialSave := none, finalSave := none, exitCode := code }
    | .forceExit code => { partialSave := none, finalSave := none, exitCode := code }
  match sig with
  | some (.duringRequest k) =>
    if k < slice.length then
      let out := runPrefix env st (slice.take k)
      handlerAt out.1 out.2
    else fullRunOutcome env modelName brands startIndex count st nowFinal
  | some (.duringDelay k) =>
    if k + 1 < slice.length then
      let out := runPrefix env st (slice.take (k + 1))
      handlerAt out.1 out.2
    else fullRunOutcome env modelName brands startIndex count st nowFinal
  | none => fullRunOutcome env modelName brands startIndex count st nowFinal

/-! ### Definitions following the spec's words

These are NOT translations of the source; they state what the spec
sentence under test predicts, for comparison with the source-derived
definitions above. -/

/-- Scan from an opening brace to its matching close brace at depth 0,
returning the consumed prefix. -/
def balancedPre (acc : List Char) (depth : Nat) : List Char → Option (List Char)
  | [] => none
  | c :: cs =>
    if c = '{' then balancedPre (c :: acc) (depth + 1) cs
    else if c = '}' then
      match depth with
      | 0 => none
      | 1 => some ((c :: acc).reverse)
      | d + 2 => balancedPre (c :: acc) (d + 1) cs
    else balancedPre (c :: acc) depth cs

/-- Modelled from the spec: "the first top-level brace-delimited JSON
object found in the free-text content" — from the first `{`, through
its matching close brace at nesting depth zero. -/
def specFirstBraceObject (s : String) : Option String :=
  let cs := s.toList
  match firstIdx '{' cs with
  | none => none
  | some i => (balancedPre [] 0 (cs.drop i)).map String.mk

/-- Modelled from the spec: a record with "`success == true` AND
`website_url` present and non-null" (contrast with `qualifies`, which
uses JS truthiness and so also rejects an empty-string URL). -/
def specQualifies (r : JObj) : Bool :=
  (match JVal.getF r "success" with
   | some (JVal.jbool true) => true
   | _ => false)
  && (match JVal.getF r "website_url" with
      | some JVal.jnull => false
      | some _ => true
      | none => false)

/-- The spec-side maximum qualifying count over parseable candidate
files, with the spec's present-and-non-null reading of `website_url`. -/
def specMaxQualCount (mk : String) (dir : List MFile) : Nat :=
  ((dir.filter fun f => isCandidateName mk f.name).filterMap (fun f => f.parsed)).foldl
    (fun m recs => max m (recs.filter specQualifies).length) 0

/-! ### Helper lemmas about the three record builders -/

theorem classifyError_mem (msg : String) : classifyError msg ∈ errorTaxonomy := by
  unfold classifyError errorTaxonomy
  split_ifs <;> simp

theorem errorRecord_get_success (bn mk now msg : String) :
    (errorRecord bn mk now msg).get "success" = some (.jbool false) := rfl

theorem errorRecord_get_error_type (bn mk now msg : String) :
    (errorRecord bn mk now msg).get "error_type" = some (.jstr (classifyError msg)) := rfl

theorem errorRecord_get_brand_name (bn mk now msg : String) :
    (errorRecord bn mk now msg).get "brand_name" = some (.jstr bn) := rfl

theorem fallbackRecord_get_success (bn mk now content : String) (d : TokenDelta) :
    (fallbackRecord bn mk now content d).get "success" = some (.jbool false) := rfl

theorem fallbackRecord_get_error_type (bn mk now content : String) (d : TokenDelta) :
    (fallbackRecord bn mk now content d).get "error_type" = some (.jstr "parse_error") := rfl

theorem fallbackRecord_get_brand_name (bn mk now content : String) (d : TokenDelta) :
    (fallbackRecord bn mk now content d).get "brand_name" = some (.jstr bn) := rfl

theorem successRecord_get_success (fs : JObj) (mk now content : String) (d : TokenDelta) :
    (successRecord fs mk now content d).get "success" = some (.jbool true) := by
  show JVal.getF _ "success" = _
  rw [JObj.getF_set_other _ _ _ _ (by decide), JObj.getF_set_self]

theorem successRecord_get_error_type (fs : JObj) (mk now content : String) (d : TokenDelta) :
    (successRecord fs mk now content d).get "error_type" = some .jnull := by
  show JVal.getF _ "error_type" = _
  rw [JObj.getF_set_other _ _ _ _ (by decide), JObj.getF_set_other _ _ _ _ (by decide),
    JObj.getF_set_self]

theorem successRecord_get_model_used (fs : JObj) (mk now content : String) (d : TokenDelta) :
    (successRecord fs mk now content d).get "model_used" = some (.jstr mk) := by
  show JVal.getF _ "model_used" = _
  rw [JObj.getF_set_other _ _ _ _ (by decide), JObj.getF_set_other _ _ _ _ (by decide),
    JObj.getF_set_other _ _ _ _ (by decide), JObj.getF_set_other _ _ _ _ (by decide),
    JObj.getF_set_other _ _ _ _ (by decide), JObj.getF_set_self]

theorem successRecord_get_timestamp (fs : JObj) (mk now content : String) (d : TokenDelta) :
    (successRecord fs mk now content d).get "timestamp" = some (.jstr now) := by
  show JVal.getF _ "timestamp" = _
  rw [JObj.getF_set_other _ _ _ _ (by decide), JObj.getF_set_other _ _ _ _ (by decide),
    JObj.getF_set_other _ _ _ _ (by decide), JObj.getF_set_other _ _ _ _ (by decide),
    JObj.getF_set_self]

theorem successRecord_get_raw_response (fs : JObj) (mk now content : String) (d : TokenDelta) :
    (successRecord fs mk now content d).get "raw_response" = some (.jstr content) := by
  show JVal.getF _ "raw_response" = _
  rw [JObj.getF_set_other _ _ _ _ (by decide), JObj.getF_set_other _ _ _ _ (by decide),
    JObj.getF_set_other _ _ _ _ (by decide), JObj.getF_set_self]

theorem successRecord_get_token_usage (fs : JObj) (mk now content : String) (d : TokenDelta) :
    (successRecord fs mk now content d).get "token_usage" = some d.toJVal := by
  show JVal.getF _ "token_usage" = _
  rw [JObj.getF_set_self]

/-- Keys the parse-success path overwrites. -/
def pipelineKeys : List String :=
  ["model_used", "timestamp", "raw_response", "error_type", "success", "token_usage"]

theorem successRecord_get_other (fs : JObj) (mk now content : String) (d : TokenDelta)
    (k : String) (hk : k ∉ pipelineKeys) :
    (successRecord fs mk now content d).get k = JVal.getF fs k := by
  simp only [pipelineKeys, List.mem_cons, List.not_mem_nil, or_false, not_or] at hk
  obtain ⟨h1, h2, h3, h4, h5, h6⟩ := hk
  show JVal.getF _ k = _
  rw [JObj.getF_set_other _ _ _ _ (Ne.symm h6), JObj.getF_set_other _ _ _ _ (Ne.symm h5),
    JObj.getF_set_other _ _ _ _ (Ne.symm h4), JObj.getF_set_other _ _ _ _ (Ne.symm h3),
    JObj.getF_set_other _ _ _ _ (Ne.symm h2), JObj.getF_set_other _ _ _ _ (Ne.symm h1)]

/-- Every call to `findBrandWebsite` produces a record built by exactly
one of the three builders of the source (catch block, parse fallback,
parse success), with matching path tag. -/
theorem findBrandWebsiteAux_shape (P : String → Option JObj) (mk bn : String)
    (fr : FetchResult) (st : TokenUsageState) (now : String) :
    (∃ msg, (findBrandWebsiteAux P mk bn fr st now).2.1 = errorRecord bn mk now msg) ∨
    (∃ content d, (findBrandWebsiteAux P mk bn fr st now).2.1 = fallbackRecord bn mk now content d) ∨
    (∃ fs content d, (findBrandWebsiteAux P mk bn fr st now).2.1 = successRecord fs mk now content d) := by
  unfold findBrandWebsiteAux
  repeat' split
  all_goals first
    | exact Or.inl ⟨_, rfl⟩
    | exact Or.inr (Or.inl ⟨_, _, rfl⟩)
    | exact Or.inr (Or.inr ⟨_, _, _, rfl⟩)

/-! ### Claims C1 and C2 -/

/-- **C1**: for every brand-name string and every backend outcome, the
Query Client returns exactly one Result Record (the embedding is a total
function — no path throws), and every failure path degrades to a record
with `success = false` and a non-null `error_type` drawn from the error
taxonomy; the only alternative is a success record. -/
theorem c1_query_client_total_with_failure_taxonomy
    (P : String → Option JObj) (mk bn : String) (fr : FetchResult)
    (st : TokenUsageState) (now : String) :
    ((findBrandWebsite P mk bn fr st now).1.get "success" = some (.jbool true)) ∨
    ((findBrandWebsite P mk bn fr st now).1.get "success" = some (.jbool false) ∧
      ∃ e ∈ errorTaxonomy,
        (findBrandWebsite P mk bn fr st now).1.get "error_type" = some (.jstr e)) := by
  have h := findBrandWebsiteAux_shape P mk bn fr st now
  simp only [findBrandWebsite]
  rcases h with ⟨msg, h⟩ | ⟨c, d, h⟩ | ⟨fs, c, d, h⟩
  · rw [h]
    exact Or.inr ⟨errorRecord_get_success bn mk now msg,
      classifyError msg, classifyError_mem msg, errorRecord_get_error_type bn mk now msg⟩
  · rw [h]
    refine Or.inr ⟨fallbackRecord_get_success bn mk now c d, "parse_error", ?_,
      fallbackRecord_get_error_type bn mk now c d⟩
    simp [errorTaxonomy]
  · rw [h]
    exact Or.inl (successRecord_get_success fs mk now c d)

/-- **C2**: every Result Record the Query Client produces satisfies:
`success = true` implies `error_type = null`, and `success = false`
implies `error_type` is one of the enumerated failure kinds
{api_error, network_error, model_error, connection_error, parse_error,
unknown_error}. -/
theorem c2_success_error_type_invariant
    (P : String → Option JObj) (mk bn : String) (fr : FetchResult)
    (st : TokenUsageState) (now : String) :
    ((findBrandWebsite P mk bn fr st now).1.get "success" = some (.jbool true) →
      (findBrandWebsite P mk bn fr st now).1.get "error_type" = some .jnull) ∧
    ((findBrandWebsite P mk bn fr st now).1.get "success" = some (.jbool false) →
      ∃ e ∈ errorTaxonomy,
        (findBrandWebsite P mk bn fr st now).1.get "error_type" = some (.jstr e)) := by
  have h := findBrandWebsiteAux_shape P mk bn fr st now
  simp only [findBrandWebsite]
  rcases h with ⟨msg, h⟩ | ⟨c, d, h⟩ | ⟨fs, c, d, h⟩
  · rw [h]
    constructor
    · intro habs
      rw [errorRecord_get_success] at habs
      exact absurd (by injection habs) (by simp)
    · intro _
      exact ⟨classifyError msg, classifyError_mem msg, errorRecord_get_error_type bn mk now msg⟩
  · rw [h]
    constructor
    · intro habs
      rw [fallbackRecord_get_success] at habs
      exact absurd (by injection habs) (by simp)
    · intro _
      refine ⟨"parse_error", ?_, fallbackRecord_get_error_type bn mk now c d⟩
      simp [errorTaxonomy]
  · rw [h]
    constructor
    · intro _
      exact successRecord_get_error_type fs mk now c d
    · intro habs
      rw [successRecord_get_success] at habs
      exact absurd (by injection habs) (by simp)

/-- A concrete 2xx backend response whose content contains one parseable
JSON object. -/
def respDataGood : JVal :=
  .jobj [("choices", .jarr [.jobj [("message", .jobj [("content",
          .jstr "\x7b\x22brand_name\x22: \x22Acme\x22, \x22website_url\x22: \x22https://acme.com\x22\x7d")])]]),
         ("usage", .jobj [("prompt_tokens", .jnum 100), ("completion_tokens", .jnum 40),
                          ("total_tokens", .jnum 140), ("cost", .jnum 7)])]

/-- Witness for C2: at a concrete parse-success input the first
implication yields `error_type = null`, and at a concrete failed fetch
the second yields a taxonomy error type. -/
theorem c2_success_error_type_invariant_witness :
    ((findBrandWebsite jsonParseObj "gpt-4o-mini" "Acme" (.ok respDataGood) initUsage
        "2024-01-01T00:00:00.000Z").1.get "error_type" = some .jnull) ∧
    (∃ e ∈ errorTaxonomy,
      (findBrandWebsite jsonParseObj "gpt-4o-mini" "Acme" (.fetchFail "fetch failed") initUsage
          "2024-01-01T00:00:00.000Z").1.get "error_type" = some (.jstr e)) :=
  ⟨(c2_success_error_type_invariant jsonParseObj "gpt-4o-mini" "Acme" (.ok respDataGood)
      initUsage "2024-01-01T00:00:00.000Z").1 rfl,
   (c2_success_error_type_invariant jsonParseObj "gpt-4o-mini" "Acme" (.fetchFail "fetch failed")
      initUsage "2024-01-01T00:00:00.000Z").2 rfl⟩

/-! ### Batch Runner lemmas and claims C4, C5, C9 -/

theorem runLoop_no_flag_length (env : BatchEnv) (i : Nat) (st : TokenUsageState)
    (l : List String) :
    (runLoop env (fun _ => false) i st l).1.length = l.length := by
  induction l generalizing i st with
  | nil => rfl
  | cons b bs ih => simp [runLoop, ih]

theorem runLoop_no_flag_get? (env : BatchEnv) (i : Nat) (st : TokenUsageState)
    (l : List String) (j : Nat) (hj : j < l.length) :
    ∃ st', (runLoop env (fun _ => false) i st l).1.get? j =
      some (findBrandWebsite env.P env.modelKey ((l.get? j).getD "") (env.fetchAt (i + j)) st'
        (env.nowAt (i + j))).1 := by
  induction l generalizing i st j with
  | nil => simp at hj
  | cons b bs ih =>
    cases j with
    | zero =>
      refine ⟨st, ?_⟩
      simp [runLoop, findBrandWebsite]
    | succ j' =>
      have hj' : j' < bs.length := by simpa using hj
      obtain ⟨st', h⟩ := ih (i + 1)
        ((findBrandWebsiteAux env.P env.modelKey b (env.fetchAt i) st (env.nowAt i)).2.2) j' hj'
      refine ⟨st', ?_⟩
      have e : i + 1 + j' = i + (j' + 1) := by omega
      rw [e] at h
      simpa [runLoop] using h

/-- Inversion: a `parsedOk` tag means the record is the success record
of the parsed object. -/
theorem findBrandWebsiteAux_tag_record (P : String → Option JObj) (mk bn : String)
    (fr : FetchResult) (st : TokenUsageState) (now : String) :
    ∀ c fs d, (findBrandWebsiteAux P mk bn fr st now).1 = .parsedOk c fs d →
      (findBrandWebsiteAux P mk bn fr st now).2.1 = successRecord fs mk now c d := by
  unfold findBrandWebsiteAux
  repeat' split
  all_goals intro c fs d h
  all_goals simp_all

/-- On every path other than parse success, `brand_name` is the input
brand; on parse success it is whatever the backend JSON carries. -/
theorem findBrandWebsiteAux_brand_name (P : String → Option JObj) (mk bn : String)
    (fr : FetchResult) (st : TokenUsageState) (now : String) :
    ((findBrandWebsiteAux P mk bn fr st now).2.1.get "brand_name" = some (.jstr bn)) ∨
    (∃ c fs d, (findBrandWebsiteAux P mk bn fr st now).1 = QueryPath.parsedOk c fs d ∧
      (findBrandWebsiteAux P mk bn fr st now).2.1.get "brand_name" = JVal.getF fs "brand_name") := by
  unfold findBrandWebsiteAux
  repeat' split
  all_goals first
    | exact Or.inl (errorRecord_get_brand_name _ _ _ _)
    | exact Or.inl (fallbackRecord_get_brand_name _ _ _ _ _)
    | exact Or.inr ⟨_, _, _, rfl, successRecord_get_other _ _ _ _ _ _ (by decide)⟩

/-- **C4**: for a brand list of length N, start index S < N and count C,
the uninterrupted Batch Runner returns exactly `min C (N - S)` Result
Records, the j-th produced from the brand at index `S + j` in order. -/
theorem c4_processBrands_slice_length (env : BatchEnv) (brands : List String)
    (S C : Nat) (st : TokenUsageState) (hS : S < brands.length) :
    (processBrands env (fun _ => false) brands S C st).1.length = min C (brands.length - S) ∧
    ∀ j, j < min C (brands.length - S) →
      ∃ st', (processBrands env (fun _ => false) brands S C st).1.get? j =
        some (findBrandWebsite env.P env.modelKey ((brands.get? (S + j)).getD "")
          (env.fetchAt j) st' (env.nowAt j)).1 := by
  constructor
  · unfold processBrands brandsSlice
    rw [runLoop_no_flag_length]
    simp
  · intro j hj
    have hjs : j < (brandsSlice brands S C).length := by
      unfold brandsSlice
      simpa using hj
    obtain ⟨st', h⟩ := runLoop_no_flag_get? env 0 st (brandsSlice brands S C) j hjs
    refine ⟨st', ?_⟩
    have hget : (brandsSlice brands S C).get? j = brands.get? (S + j) := by
      unfold brandsSlice
      rw [List.get?_take (by simpa using (by omega : j < C)), List.get?_drop]
    rw [hget] at h
    simpa [processBrands] using h

/-- Witness for C4 at a concrete two-brand list: one record, produced
from the brand at index 1. -/
theorem c4_processBrands_slice_length_witness :
    (processBrands
        { P := jsonParseObj, modelKey := "gpt-4o-mini",
          fetchAt := fun _ => .fetchFail "boom", nowAt := fun _ => "T" }
        (fun _ => false) ["Acme", "Benchmade"] 1 5 initUsage).1.length = min 5 (2 - 1) :=
  (c4_processBrands_slice_length
    { P := jsonParseObj, modelKey := "gpt-4o-mini",
      fetchAt := fun _ => .fetchFail "boom", nowAt := fun _ => "T" }
    ["Acme", "Benchmade"] 1 5 initUsage (by decide)).1

/-- A backend response whose content parses but carries a `brand_name`
different from the queried brand. -/
def respDataEvil : JVal :=
  .jobj [("choices", .jarr [.jobj [("message", .jobj [("content",
          .jstr "\x7b\x22brand_name\x22: \x22Evil Brand\x22\x7d")])]])]

/-- Counterexample to C5 as stated: on the parse-success path the
backend's JSON is returned as-is, and its `brand_name` field is NOT
overwritten, so the record's `brand_name` can differ from the source
input (here `"Evil Brand"` for input `"Acme"`). -/
theorem c5_counterexample_brand_name_passthrough :
    (findBrandWebsite jsonParseObj "gpt-4o-mini" "Acme" (.ok respDataEvil) initUsage
        "2024-01-01T00:00:00.000Z").1.get "brand_name" = some (.jstr "Evil Brand") ∧
    (JVal.jstr "Evil Brand") ≠ (JVal.jstr "Acme") :=
  ⟨rfl, by simp⟩

/-- **C5 (amended)**: `brand_name` equals the source input on every
failure and parse-fallback path; on the parse-success path it is the
backend object's own `brand_name` field; and the result list preserves
the processing order of the input slice (the j-th record is produced
from the j-th brand of the slice). -/
theorem c5_amended_brand_name_and_order :
    (∀ (P : String → Option JObj) (mk bn : String) (fr : FetchResult)
        (st : TokenUsageState) (now : String),
      ((findBrandWebsiteAux P mk bn fr st now).2.1.get "brand_name" = some (.jstr bn)) ∨
      (∃ c fs d, (findBrandWebsiteAux P mk bn fr st now).1 = QueryPath.parsedOk c fs d ∧
        (findBrandWebsiteAux P mk bn fr st now).2.1.get "brand_name" = JVal.getF fs "brand_name")) ∧
    (∀ (env : BatchEnv) (brands : List String) (S C : Nat) (st : TokenUsageState) (j : Nat),
      j < (brandsSlice brands S C).length →
      ∃ st', (processBrands env (fun _ => false) brands S C st).1.get? j =
        some (findBrandWebsite env.P env.modelKey (((brandsSlice brands S C).get? j).getD "")
          (env.fetchAt j) st' (env.nowAt j)).1) := by
  refine ⟨findBrandWebsiteAux_brand_name, ?_⟩
  intro env brands S C st j hj
  simpa [processBrands] using runLoop_no_flag_get? env 0 st (brandsSlice brands S C) j hj

/-- Witness for C5 (amended): the order clause at a concrete slice. -/
theorem c5_amended_brand_name_and_order_witness :
    ∃ st', (processBrands
        { P := jsonParseObj, modelKey := "gpt-4o-mini",
          fetchAt := fun _ => .fetchFail "boom", nowAt := fun _ => "T" }
        (fun _ => false) ["Acme", "Benchmade"] 1 1 initUsage).1.get? 0 =
      some (findBrandWebsite jsonParseObj "gpt-4o-mini"
        (((brandsSlice ["Acme", "Benchmade"] 1 1).get? 0).getD "")
        (.fetchFail "boom") st' "T").1 :=
  c5_amended_brand_name_and_order.2
    { P := jsonParseObj, modelKey := "gpt-4o-mini",
      fetchAt := fun _ => .fetchFail "boom", nowAt := fun _ => "T" }
    ["Acme", "Benchmade"] 1 1 initUsage 0 (by decide)

/-- **C9**: on the parse-success path the six pipeline fields overwrite
any same-named fields of the backend JSON, and every other
backend-supplied field passes through unvalidated. -/
theorem c9_pipeline_fields_overwrite (P : String → Option JObj) (mk bn : String)
    (fr : FetchResult) (st : TokenUsageState) (now : String) (c : String) (fs : JObj)
    (d : TokenDelta)
    (h : (findBrandWebsiteAux P mk bn fr st now).1 = QueryPath.parsedOk c fs d) :
    ((findBrandWebsiteAux P mk bn fr st now).2.1.get "success" = some (.jbool true)) ∧
    ((findBrandWebsiteAux P mk bn fr st now).2.1.get "error_type" = some .jnull) ∧
    ((findBrandWebsiteAux P mk bn fr st now).2.1.get "model_used" = some (.jstr mk)) ∧
    ((findBrandWebsiteAux P mk bn fr st now).2.1.get "timestamp" = some (.jstr now)) ∧
    ((findBrandWebsiteAux P mk bn fr st now).2.1.get "raw_response" = some (.jstr c)) ∧
    ((findBrandWebsiteAux P mk bn fr st now).2.1.get "token_usage" = some d.toJVal) ∧
    (∀ k, k ∉ pipelineKeys →
      (findBrandWebsiteAux P mk bn fr st now).2.1.get k = JVal.getF fs k) := by
  have hr := findBrandWebsiteAux_tag_record P mk bn fr st now c fs d h
  rw [hr]
  exact ⟨successRecord_get_success fs mk now c d, successRecord_get_error_type fs mk now c d,
    successRecord_get_model_used fs mk now c d, successRecord_get_timestamp fs mk now c d,
    successRecord_get_raw_response fs mk now c d, successRecord_get_token_usage fs mk now c d,
    fun k hk => successRecord_get_other fs mk now c d k hk⟩

/-- A parse-success response whose backend JSON tries to smuggle
conflicting pipeline fields. -/
def respDataConflict : JVal :=
  .jobj [("choices", .jarr [.jobj [("message", .jobj [("content",
          .jstr "\x7b\x22success\x22: false, \x22error_type\x22: \x22api_error\x22, \x22model_used\x22: \x22other\x22, \x22website_url\x22: \x22https://a.com\x22\x7d")])]])]

/-- Witness for C9: at a concrete conflicting backend JSON the pipeline
values win (`success=true`, `error_type=null`) and the untouched
`website_url` passes through. -/
theorem c9_pipeline_fields_overwrite_witness :
    ((findBrandWebsiteAux jsonParseObj "gpt-4o-mini" "Acme" (.ok respDataConflict) initUsage
        "T").2.1.get "success" = some (.jbool true)) ∧
    ((findBrandWebsiteAux jsonParseObj "gpt-4o-mini" "Acme" (.ok respDataConflict) initUsage
        "T").2.1.get "error_type" = some .jnull) ∧
    ((findBrandWebsiteAux jsonParseObj "gpt-4o-mini" "Acme" (.ok respDataConflict) initUsage
        "T").2.1.get "website_url" = some (.jstr "https://a.com")) := by
  have h := c9_pipeline_fields_overwrite jsonParseObj "gpt-4o-mini" "Acme" (.ok respDataConflict)
    initUsage "T" _ _ _ rfl
  exact ⟨h.1, h.2.1, rfl⟩

/-! ### Claim C6: JSON extraction and the parse fallback -/

/-- Inversion: a `parsedOk` tag means the greedy candidate was extracted
from the content and parsed to the recorded object. -/
theorem findBrandWebsiteAux_parsedOk_route (P : String → Option JObj) (mk bn : String)
    (fr : FetchResult) (st : TokenUsageState) (now : String) :
    ∀ c fs d, (findBrandWebsiteAux P mk bn fr st now).1 = .parsedOk c fs d →
      ∃ cand, extractJsonCandidate c = some cand ∧ P cand = some fs := by
  unfold findBrandWebsiteAux
  repeat' split
  all_goals intro c fs d h
  all_goals simp_all

/-- Inversion: a `fallback` tag means either no candidate was extracted
or the candidate failed to parse, and the record is the fallback
record. -/
theorem findBrandWebsiteAux_fallback_route (P : String → Option JObj) (mk bn : String)
    (fr : FetchResult) (st : TokenUsageState) (now : String) :
    ∀ c d, (findBrandWebsiteAux P mk bn fr st now).1 = .fallback c d →
      (findBrandWebsiteAux P mk bn fr st now).2.1 = fallbackRecord bn mk now c d ∧
      (extractJsonCandidate c = none ∨
        ∃ cand, extractJsonCandidate c = some cand ∧ P cand = none) := by
  unfold findBrandWebsiteAux
  repeat' split
  all_goals intro c d h
  all_goals simp_all

/-- **C6 (amended)**: the code extracts not the first top-level
brace-delimited object but the greedy span from the first `{` to the
LAST `}` of the content; if that span parses, the success record is the
parsed object with the pipeline fields attached, otherwise the fallback
record carries `success=false`, `error_type=parse_error`,
`search_confidence=low`, `website_url=null`, a description built from
the first 200 characters of the raw text, and `raw_response`,
`timestamp` and `token_usage` populated exactly as on the success
path. -/
theorem c6_amended_greedy_extraction_and_fallback :
    (∀ (P : String → Option JObj) (mk bn : String) (fr : FetchResult)
        (st : TokenUsageState) (now : String) (c : String) (fs : JObj) (d : TokenDelta),
      (findBrandWebsiteAux P mk bn fr st now).1 = .parsedOk c fs d →
        (∃ cand, extractJsonCandidate c = some cand ∧ P cand = some fs) ∧
        (findBrandWebsiteAux P mk bn fr st now).2.1 = successRecord fs mk now c d) ∧
    (∀ (P : String → Option JObj) (mk bn : String) (fr : FetchResult)
        (st : TokenUsageState) (now : String) (c : String) (d : TokenDelta),
      (findBrandWebsiteAux P mk bn fr st now).1 = .fallback c d →
        (extractJsonCandidate c = none ∨
          ∃ cand, extractJsonCandidate c = some cand ∧ P cand = none) ∧
        (findBrandWebsiteAux P mk bn fr st now).2.1 = fallbackRecord bn mk now c d) ∧
    (∀ (bn mk now c : String) (d : TokenDelta),
      ((fallbackRecord bn mk now c d).get "success" = some (.jbool false)) ∧
      ((fallbackRecord bn mk now c d).get "error_type" = some (.jstr "parse_error")) ∧
      ((fallbackRecord bn mk now c d).get "search_confidence" = some (.jstr "low")) ∧
      ((fallbackRecord bn mk now c d).get "website_url" = some .jnull) ∧
      ((fallbackRecord bn mk now c d).get "description" =
        some (.jstr (jsSubstring200 c ++ "..."))) ∧
      ((fallbackRecord bn mk now c d).get "raw_response" = some (.jstr c)) ∧
      ((fallbackRecord bn mk now c d).get "timestamp" = some (.jstr now)) ∧
      ((fallbackRecord bn mk now c d).get "token_usage" = some d.toJVal)) := by
  refine ⟨?_, ?_, ?_⟩
  · intro P mk bn fr st now c fs d h
    exact ⟨findBrandWebsiteAux_parsedOk_route P mk bn fr st now c fs d h,
      findBrandWebsiteAux_tag_record P mk bn fr st now c fs d h⟩
  · intro P mk bn fr st now c d h
    obtain ⟨h1, h2⟩ := findBrandWebsiteAux_fallback_route P mk bn fr st now c d h
    exact ⟨h2, h1⟩
  · intro bn mk now c d
    exact ⟨rfl, rfl, rfl, rfl, rfl, rfl, rfl, rfl⟩

/-- A backend response whose content holds two top-level JSON objects:
the first parses, but the greedy span (first `{` to last `}`) does
not. -/
def respDataTwoObjects : JVal :=
  .jobj [("choices", .jarr [.jobj [("message", .jobj [("content",
          .jstr "\x7b\x22a\x22: 1\x7d and \x7b\x22b\x22: 2\x7d")])]])]

/-- Counterexample to C6 as stated: for this content the first
top-level brace-delimited object is `{"a": 1}`, which parses — the
claim therefore predicts a success record — yet the code's greedy span
fails to parse and the record is the `parse_error` fallback. -/
theorem c6_counterexample_not_first_object :
    (specFirstBraceObject "\x7b\x22a\x22: 1\x7d and \x7b\x22b\x22: 2\x7d" = some "\x7b\x22a\x22: 1\x7d") ∧
    (jsonParseObj "\x7b\x22a\x22: 1\x7d" = some [("a", JVal.jnum 1)]) ∧
    (extractJsonCandidate "\x7b\x22a\x22: 1\x7d and \x7b\x22b\x22: 2\x7d" =
      some "\x7b\x22a\x22: 1\x7d and \x7b\x22b\x22: 2\x7d") ∧
    (jsonParseObj "\x7b\x22a\x22: 1\x7d and \x7b\x22b\x22: 2\x7d" = none) ∧
    ((findBrandWebsite jsonParseObj "gpt-4o-mini" "Acme" (.ok respDataTwoObjects) initUsage
        "T").1.get "success" = some (.jbool false)) ∧
    ((findBrandWebsite jsonParseObj "gpt-4o-mini" "Acme" (.ok respDataTwoObjects) initUsage
        "T").1.get "error_type" = some (.jstr "parse_error")) :=
  ⟨rfl, rfl, rfl, rfl, rfl, rfl⟩

/-- Witness for C6 (amended): the fallback clause applied at the
two-object content. -/
theorem c6_amended_greedy_extraction_and_fallback_witness :
    (extractJsonCandidate "\x7b\x22a\x22: 1\x7d and \x7b\x22b\x22: 2\x7d" = none ∨
      ∃ cand, extractJsonCandidate "\x7b\x22a\x22: 1\x7d and \x7b\x22b\x22: 2\x7d" = some cand ∧
        jsonParseObj cand = none) ∧
    (findBrandWebsiteAux jsonParseObj "gpt-4o-mini" "Acme" (.ok respDataTwoObjects) initUsage
        "T").2.1 = fallbackRecord "Acme" "gpt-4o-mini" "T" "\x7b\x22a\x22: 1\x7d and \x7b\x22b\x22: 2\x7d"
          { prompt_tokens := 0, completion_tokens := 0, total_tokens := 0, cost := 0 } :=
  c6_amended_greedy_extraction_and_fallback.2.1 jsonParseObj "gpt-4o-mini" "Acme"
    (.ok respDataTwoObjects) initUsage "T" "\x7b\x22a\x22: 1\x7d and \x7b\x22b\x22: 2\x7d"
    { prompt_tokens := 0, completion_tokens := 0, total_tokens := 0, cost := 0 } rfl

/-! ### Completion Store lemmas -/

theorem foldl_max_le_init {α : Type} (f : α → Nat) : ∀ (l : List α) (b : Nat),
    b ≤ l.foldl (fun m x => max m (f x)) b := by
  intro l
  induction l with
  | nil => intro b; exact le_refl b
  | cons x xs ih => intro b; exact le_trans (Nat.le_max_left _ _) (ih _)

theorem foldl_max_mem_le {α : Type} (f : α → Nat) : ∀ (l : List α) (b : Nat) (x : α), x ∈ l →
    f x ≤ l.foldl (fun m y => max m (f y)) b := by
  intro l
  induction l with
  | nil => intro b x hx; simp at hx
  | cons y ys ih =>
    intro b x hx
    rcases List.mem_cons.mp hx with h | h
    · subst h
      exact le_trans (Nat.le_max_right _ _) (foldl_max_le_init f ys _)
    · exact ih _ x h

theorem foldl_max_of_all_le {α : Type} (f : α → Nat) : ∀ (l : List α) (b : Nat),
    (∀ x ∈ l, f x ≤ b) → l.foldl (fun m y => max m (f y)) b = b := by
  intro l
  induction l with
  | nil => intro b _; rfl
  | cons y ys ih =>
    intro b hall
    simp only [List.foldl_cons]
    rw [Nat.max_eq_left (hall y (by simp))]
    exact ih b fun x hx => hall x (by simp [hx])

theorem pickBest_count : ∀ (files : List MFile) (best : Option (String × List JObj)) (bc : Nat),
    (pickBest files best bc).2 =
      (files.filterMap (fun f => f.parsed)).foldl
        (fun m recs => max m (recs.filter qualifies).length) bc := by
  intro files
  induction files with
  | nil => intro best bc; rfl
  | cons f fs ih =>
    intro best bc
    cases hp : f.parsed with
    | none => simp [pickBest, hp, List.filterMap_cons, ih]
    | some recs =>
      simp only [pickBest, hp, List.filterMap_cons, List.foldl_cons]
      by_cases hlt : bc < (recs.filter qualifies).length
      · rw [if_pos hlt, ih]
        rw [Nat.max_eq_right (le_of_lt hlt)]
      · rw [if_neg hlt, ih]
        rw [Nat.max_eq_left (Nat.not_lt.mp hlt)]

theorem pickBest_none_iff : ∀ (files : List MFile) (best : Option (String × List JObj)) (bc : Nat),
    (pickBest files best bc).1 = none ↔
      (best = none ∧ ∀ recs ∈ files.filterMap (fun f => f.parsed),
        (recs.filter qualifies).length ≤ bc) := by
  intro files
  induction files with
  | nil => intro best bc; simp [pickBest]
  | cons f fs ih =>
    intro best bc
    cases hp : f.parsed with
    | none => simp [pickBest, hp, List.filterMap_cons, ih]
    | some recs =>
      simp only [pickBest, hp, List.filterMap_cons]
      by_cases hlt : bc < (recs.filter qualifies).length
      · rw [if_pos hlt, ih]
        constructor
        · intro h
          exact absurd h.1 (by simp)
        · rintro ⟨hb, hall⟩
          exact absurd (hall recs (by simp)) (by omega)
      · rw [if_neg hlt, ih]
        have hle : (recs.filter qualifies).length ≤ bc := Nat.not_lt.mp hlt
        simp [List.forall_mem_cons, hle]

theorem pickBest_some_count : ∀ (files : List MFile) (best : Option (String × List JObj)) (bc : Nat),
    (∀ n r, best = some (n, r) → (r.filter qualifies).length = bc) →
    ∀ n r, (pickBest files best bc).1 = some (n, r) →
      (r.filter qualifies).length = (pickBest files best bc).2 := by
  intro files
  induction files with
  | nil =>
    intro best bc hinv n r h
    exact hinv n r h
  | cons f fs ih =>
    intro best bc hinv n r h
    cases hp : f.parsed with
    | none =>
      simp only [pickBest, hp] at h ⊢
      exact ih best bc hinv n r h
    | some recs =>
      simp only [pickBest, hp] at h ⊢
      by_cases hlt : bc < (recs.filter qualifies).length
      · rw [if_pos hlt] at h ⊢
        refine ih _ _ ?_ n r h
        rintro n' r' hEq
        injection hEq with hEq'
        injection hEq' with _ h2
        rw [← h2]
      · rw [if_neg hlt] at h ⊢
        exact ih best bc hinv n r h

theorem pickBest_root_count (files : List MFile) (n : String) (r : List JObj)
    (h : (pickBest files none 0).1 = some (n, r)) :
    (r.filter qualifies).length = (pickBest files none 0).2 :=
  pickBest_some_count files none 0 (by rintro n' r' h'; cases h') n r h

theorem maxQualCount_eq_pickBest (mk : String) (dir : List MFile) :
    maxQualCount mk dir = (pickBest (dir.filter fun f => isCandidateName mk f.name) none 0).2 := by
  unfold maxQualCount
  rw [pickBest_count]

theorem filterMap_parsed_nil : ∀ (files : List MFile),
    files.filter (fun f => f.parsed.isSome) = [] → files.filterMap (fun f => f.parsed) = [] := by
  intro files
  induction files with
  | nil => intro _; rfl
  | cons f fs ih =>
    intro h
    cases hp : f.parsed with
    | none =>
      simp only [List.filter_cons, hp] at h
      simp only [List.filterMap_cons, hp]
      by_cases hc : (Option.isSome (α := List JObj) none : Bool) = true
      · simp at hc
      · simp only [Option.isSome_none] at h
        exact ih (by simpa using h)
    | some recs =>
      simp only [List.filter_cons, hp, Option.isSome_some, if_pos] at h
      cases h

/-- Joint characterization of the full client's completion check:
`hasResults` holds iff the maximum qualifying count both meets the
threshold and is positive, and in that case `successfulCount` reports
exactly that maximum. -/
theorem checkExistingResults_spec (mk : String) (T : Nat) (dir : List MFile) :
    ((checkExistingResults mk T dir).hasResults = true ↔
      (T ≤ maxQualCount mk dir ∧ 1 ≤ maxQualCount mk dir)) ∧
    ((checkExistingResults mk T dir).hasResults = true →
      (checkExistingResults mk T dir).successfulCount = some (maxQualCount mk dir)) := by
  have hmax := maxQualCount_eq_pickBest mk dir
  unfold checkExistingResults
  by_cases hemp : (dir.filter fun f => isCandidateName mk f.name).isEmpty
  · rw [if_pos hemp]
    have hnil : (dir.filter fun f => isCandidateName mk f.name) = [] :=
      List.isEmpty_iff.mp hemp
    have h0 : maxQualCount mk dir = 0 := by
      rw [hmax, hnil]
      rfl
    constructor
    · simp [h0]
    · intro h
      simp at h
  · rw [if_neg hemp]
    rcases hpb : pickBest (dir.filter fun f => isCandidateName mk f.name) none 0 with ⟨b, bc⟩
    have hmax' : maxQualCount mk dir = bc := by rw [hmax, hpb]
    cases b with
    | none =>
      have hall := (pickBest_none_iff (dir.filter fun f => isCandidateName mk f.name) none 0).mp
        (by rw [hpb])
      have h0 : maxQualCount mk dir = 0 := by
        unfold maxQualCount
        exact foldl_max_of_all_le _ _ 0 hall.2
      constructor
      · simp [h0]
      · intro h
        simp at h
    | some nr =>
      obtain ⟨name, recs⟩ := nr
      have hcnt : (recs.filter qualifies).length = bc := by
        have := pickBest_root_count (dir.filter fun f => isCandidateName mk f.name) name recs
          (by rw [hpb])
        rw [hpb] at this
        exact this
      have hpos : 1 ≤ bc := by
        rcases Nat.eq_zero_or_pos bc with h0 | h1
        · exfalso
          have : (pickBest (dir.filter fun f => isCandidateName mk f.name) none 0).1 = none := by
            rw [pickBest_none_iff]
            refine ⟨rfl, ?_⟩
            intro recs' hrecs'
            have hle2 : (recs'.filter qualifies).length ≤
                ((dir.filter fun f => isCandidateName mk f.name).filterMap
                  (fun f => f.parsed)).foldl
                  (fun m recs => max m (recs.filter qualifies).length) 0 :=
              foldl_max_mem_le (fun recs => (recs.filter qualifies).length)
                ((dir.filter fun f => isCandidateName mk f.name).filterMap (fun f => f.parsed)) 0
                recs' hrecs'
            have hz : maxQualCount mk dir = 0 := by rw [hmax', h0]
            unfold maxQualCount at hz
            omega
          rw [hpb] at this
          cases this
        · exact h1
      dsimp only
      by_cases hT : T ≤ (recs.filter qualifies).length
      · rw [if_pos hT]
        constructor
        · exact iff_of_true rfl ⟨by omega, by omega⟩
        · intro _
          show some ((recs.filter qualifies).length) = some (maxQualCount mk dir)
          rw [hmax', hcnt]
      · rw [if_neg hT]
        constructor
        · refine iff_of_false (by simp) ?_
          rintro ⟨hTm, _⟩
          omega
        · intro h
          simp at h

/-- Characterization of the show-mode stub's completion check: no
threshold — `hasResults` holds iff some parseable candidate file has a
positive qualifying count. -/
theorem minimalCheck_spec (mk : String) (dir : List MFile) :
    (minimalCheckExistingResults mk dir).hasResults = true ↔ 1 ≤ maxQualCount mk dir := by
  have hmax := maxQualCount_eq_pickBest mk dir
  unfold minimalCheckExistingResults
  by_cases hemp : (dir.filter fun f => isCandidateName mk f.name).isEmpty
  · rw [if_pos hemp]
    have hnil : (dir.filter fun f => isCandidateName mk f.name) = [] :=
      List.isEmpty_iff.mp hemp
    have h0 : maxQualCount mk dir = 0 := by
      rw [hmax, hnil]
      rfl
    simp [h0]
  · rw [if_neg hemp]
    rcases hpb : pickBest (dir.filter fun f => isCandidateName mk f.name) none 0 with ⟨b, bc⟩
    have hmax' : maxQualCount mk dir = bc := by rw [hmax, hpb]
    cases b with
    | none =>
      have hall := (pickBest_none_iff (dir.filter fun f => isCandidateName mk f.name) none 0).mp
        (by rw [hpb])
      have h0 : maxQualCount mk dir = 0 := by
        unfold maxQualCount
        exact foldl_max_of_all_le _ _ 0 hall.2
      simp [h0]
    | some nr =>
      obtain ⟨name, recs⟩ := nr
      have hpos : 1 ≤ bc := by
        rcases Nat.eq_zero_or_pos bc with h0 | h1
        · exfalso
          have hcnt : (recs.filter qualifies).length = bc := by
            have := pickBest_root_count (dir.filter fun f => isCandidateName mk f.name) name recs
              (by rw [hpb])
            rw [hpb] at this
            exact this
          have : (pickBest (dir.filter fun f => isCandidateName mk f.name) none 0).1 = none := by
            rw [pickBest_none_iff]
            refine ⟨rfl, ?_⟩
            intro recs' hrecs'
            have hle2 : (recs'.filter qualifies).length ≤
                ((dir.filter fun f => isCandidateName mk f.name).filterMap
                  (fun f => f.parsed)).foldl
                  (fun m recs => max m (recs.filter qualifies).length) 0 :=
              foldl_max_mem_le (fun recs => (recs.filter qualifies).length)
                ((dir.filter fun f => isCandidateName mk f.name).filterMap (fun f => f.parsed)) 0
                recs' hrecs'
            have hz : maxQualCount mk dir = 0 := by rw [hmax', h0]
            unfold maxQualCount at hz
            omega
          rw [hpb] at this
          cases this
        · exact h1
      dsimp only
      rw [hmax']
      exact iff_of_true rfl hpos

theorem filter_candidate_no_marker (mk : String) (dir : List MFile) :
    (dir.filter fun f => !(strIncludes f.name "_PARTIAL_")).filter
        (fun f => isCandidateName mk f.name) =
      dir.filter (fun f => isCandidateName mk f.name) := by
  rw [List.filter_filter]
  apply List.filter_congr
  intro f _
  unfold isCandidateName
  cases h1 : strStarts f.name ("brand_websites_" ++ safeModelKey mk ++ "_") <;>
    cases h2 : strEnds f.name ".json" <;>
      cases h3 : strIncludes f.name "_PARTIAL_" <;> simp [h1, h2, h3]

theorem checkExistingResults_partial_invariant (mk : String) (T : Nat) (dir : List MFile) :
    checkExistingResults mk T (dir.filter fun f => !(strIncludes f.name "_PARTIAL_")) =
      checkExistingResults mk T dir := by
  unfold checkExistingResults
  rw [filter_candidate_no_marker]

theorem pickBest_filter_parsed : ∀ (files : List MFile) (best : Option (String × List JObj))
    (bc : Nat), pickBest (files.filter fun f => f.parsed.isSome) best bc = pickBest files best bc := by
  intro files
  induction files with
  | nil => intro best bc; rfl
  | cons f fs ih =>
    intro best bc
    cases hp : f.parsed with
    | none => simp [List.filter_cons, hp, pickBest, ih]
    | some recs =>
      simp only [List.filter_cons, hp, Option.isSome_some, if_pos, pickBest]
      split <;> exact ih _ _

theorem checkExistingResults_unparseable_invariant (mk : String) (T : Nat) (dir : List MFile) :
    checkExistingResults mk T (dir.filter fun f => f.parsed.isSome) =
      checkExistingResults mk T dir := by
  simp only [checkExistingResults]
  have hcomm : (dir.filter fun f => f.parsed.isSome).filter (fun f => isCandidateName mk f.name) =
      (dir.filter fun f => isCandidateName mk f.name).filter (fun f => f.parsed.isSome) := by
    rw [List.filter_filter, List.filter_filter]
    exact List.filter_congr fun f _ => by rw [Bool.and_comm]
  rw [hcomm, pickBest_filter_parsed]
  by_cases h1 : ((dir.filter fun f => isCandidateName mk f.name).filter
      fun f => f.parsed.isSome).isEmpty
  · by_cases h2 : (dir.filter fun f => isCandidateName mk f.name).isEmpty
    · rw [if_pos h1, if_pos h2]
    · rw [if_pos h1, if_neg h2]
      have hnone : (pickBest (dir.filter fun f => isCandidateName mk f.name) none 0).1 = none := by
        rw [pickBest_none_iff]
        refine ⟨rfl, ?_⟩
        intro recs hrecs
        rw [filterMap_parsed_nil _ (List.isEmpty_iff.mp h1)] at hrecs
        simp at hrecs
      rcases hpb : pickBest (dir.filter fun f => isCandidateName mk f.name) none 0 with ⟨b, bc⟩
      rw [hpb] at hnone
      simp only at hnone
      subst hnone
      rfl
  · have h2 : ¬ (dir.filter fun f => isCandidateName mk f.name).isEmpty := by
      intro hc
      rw [List.isEmpty_iff.mp hc] at h1
      exact h1 rfl
    rw [if_neg h1, if_neg h2]

/-! ### Claims C3 and C10 -/

/-- The directory of the C3 counterexample: one candidate file whose
single record has `success=true` and `website_url=""` — present and
non-null, but falsy. -/
def dirC3 : List MFile :=
  [{ name := "brand_websites_m_2024.json",
     parsed := some [[("success", .jbool true), ("website_url", .jstr "")]] }]

/-- Counterexample to C3 as stated: with threshold `T = 0` the maximum
count of records with `success==true` and `website_url` present and
non-null is 1 ≥ T, so the claim predicts the sufficient-results state;
the code reports no results (JS truthiness rejects the empty-string
URL, and the strict `>` fold never selects a best file whose truthy
count is zero, so a qualifying count of 0 can never satisfy any
threshold, not even `T = 0`). -/
theorem c3_counterexample_threshold_and_truthiness :
    specMaxQualCount "m" dirC3 = 1 ∧
    (checkExistingResults "m" 0 dirC3).hasResults = false :=
  ⟨rfl, rfl⟩

/-- **C3 (amended)**: the Completion Store ignores partial-marker files
and unparseable files (both removals leave its outcome unchanged),
and reports the sufficient-results state iff the maximum count of
records with `success==true` and a TRUTHY `website_url` over the
parseable candidate files is both ≥ T and positive, reporting that
maximum as `successfulCount`; with zero parseable candidate files it
reports the no-results state. -/
theorem c3_amended_completion_store :
    (∀ (mk : String) (T : Nat) (dir : List MFile),
      checkExistingResults mk T (dir.filter fun f => !(strIncludes f.name "_PARTIAL_")) =
        checkExistingResults mk T dir) ∧
    (∀ (mk : String) (T : Nat) (dir : List MFile),
      checkExistingResults mk T (dir.filter fun f => f.parsed.isSome) =
        checkExistingResults mk T dir) ∧
    (∀ (mk : String) (T : Nat) (dir : List MFile),
      (checkExistingResults mk T dir).hasResults = true ↔
        (T ≤ maxQualCount mk dir ∧ 1 ≤ maxQualCount mk dir)) ∧
    (∀ (mk : String) (T : Nat) (dir : List MFile),
      (checkExistingResults mk T dir).hasResults = true →
        (checkExistingResults mk T dir).successfulCount = some (maxQualCount mk dir)) ∧
    (∀ (mk : String) (T : Nat) (dir : List MFile),
      ((dir.filter fun f => isCandidateName mk f.name).filterMap (fun f => f.parsed)) = [] →
        (checkExistingResults mk T dir).hasResults = false) := by
  refine ⟨checkExistingResults_partial_invariant, checkExistingResults_unparseable_invariant,
    fun mk T dir => (checkExistingResults_spec mk T dir).1,
    fun mk T dir => (checkExistingResults_spec mk T dir).2, ?_⟩
  intro mk T dir hnil
  have h0 : maxQualCount mk dir = 0 := by
    unfold maxQualCount
    rw [hnil]
    rfl
  have hiff := (checkExistingResults_spec mk T dir).1
  rw [h0] at hiff
  cases hres : (checkExistingResults mk T dir).hasResults
  · rfl
  · exfalso
    have h1 := hiff.mp (by rw [hres])
    omega

/-- A directory with one unparseable candidate file. -/
def dirUnparseable : List MFile :=
  [{ name := "brand_websites_m_x.json", parsed := none }]

/-- Witness for C3 (amended): zero parseable candidate files yield the
no-results state. -/
theorem c3_amended_completion_store_witness :
    (checkExistingResults "m" 3 dirUnparseable).hasResults = false :=
  c3_amended_completion_store.2.2.2.2 "m" 3 dirUnparseable rfl

/-- **C10**: the show-mode stub's check applies no threshold — it
reports results iff some parseable candidate file has a positive
qualifying count — while the full client additionally requires the
maximum to reach the requested count; hence on a below-threshold best
file the two disagree on `hasResults`. -/
theorem c10_stub_vs_full_threshold :
    (∀ (mk : String) (dir : List MFile),
      (minimalCheckExistingResults mk dir).hasResults = true ↔ 1 ≤ maxQualCount mk dir) ∧
    (∀ (mk : String) (T : Nat) (dir : List MFile),
      (checkExistingResults mk T dir).hasResults = true ↔
        (T ≤ maxQualCount mk dir ∧ 1 ≤ maxQualCount mk dir)) ∧
    (∀ (mk : String) (T : Nat) (dir : List MFile),
      1 ≤ maxQualCount mk dir → maxQualCount mk dir < T →
        (minimalCheckExistingResults mk dir).hasResults = true ∧
        (checkExistingResults mk T dir).hasResults = false) := by
  refine ⟨minimalCheck_spec, fun mk T dir => (checkExistingResults_spec mk T dir).1, ?_⟩
  intro mk T dir h1 h2
  refine ⟨(minimalCheck_spec mk dir).mpr h1, ?_⟩
  cases hres : (checkExistingResults mk T dir).hasResults
  · rfl
  · have := ((checkExistingResults_spec mk T dir).1).mp (by rw [hres])
    omega

/-- The directory of the C10 witness: one parseable candidate file with
one qualifying record. -/
def dirC10 : List MFile :=
  [{ name := "brand_websites_m_2024.json",
     parsed := some [[("success", .jbool true), ("website_url", .jstr "https://a.com")]] }]

/-- Witness for C10: for the same directory, the stub reports results
while the full client with requested count 5 does not. -/
theorem c10_stub_vs_full_threshold_witness :
    (minimalCheckExistingResults "m" dirC10).hasResults = true ∧
    (checkExistingResults "m" 5 dirC10).hasResults = false :=
  c10_stub_vs_full_threshold.2.2 "m" 5 dirC10 (by decide) (by decide)

/-! ### Claims C7 and C8 -/

theorem strIncludes_partialFilename (mk now : String) :
    strIncludes (partialFilename mk now) "_PARTIAL_" = true := by
  unfold partialFilename strIncludes
  have he : ("brand_websites_" ++ safeModelKey mk ++ "_PARTIAL_" ++ tsSafe now ++ ".json").toList
      = ("brand_websites_".toList ++ (safeModelKey mk).toList) ++
        ("_PARTIAL_".toList ++ ((tsSafe now).toList ++ ".json".toList)) := by
    simp [String.toList, String.data_append, List.append_assoc]
  rw [he]
  exact occursIn_append_left _ _ _ (occursIn_self_append _ _ (by decide))

/-- **C7**: the Interruption Handler is a two-state machine.  A signal
while already shutting down force-exits with code 1 and never saves; a
first signal sets the shared flag and, with a registered finder and at
least one accumulated record, saves a partial Run Record — to a
filename carrying the `_PARTIAL_` marker, with
`status = PARTIAL_RESULTS_DUE_TO_INTERRUPTION` and otherwise exactly
the derived statistics of a normal-completion save over the same
records — then exits 0; with zero accumulated records the save is
skipped and the process exits 0. -/
theorem c7_graceful_shutdown_state_machine :
    (∀ (g : GlobalState) (now : String), g.isShuttingDown = true →
      gracefulShutdown g now = (.forceExit 1, g)) ∧
    (∀ (g : GlobalState) (now : String), g.isShuttingDown = false →
      (gracefulShutdown g now).2.isShuttingDown = true) ∧
    (∀ (g : GlobalState) (now : String) (f : FinderInfo), g.isShuttingDown = false →
      g.currentFinder = some f → 0 < g.currentResults.length →
      (gracefulShutdown g now).1 = .savePartialAndExit (partialFilename f.modelKey now)
          (savePartialOutput f now g.currentResults) 0 ∧
        strIncludes (partialFilename f.modelKey now) "_PARTIAL_" = true ∧
        (savePartialOutput f now g.currentResults).metadata =
          { (saveResultsOutput f.modelKey f.modelName now f.tokenUsage
              g.currentResults).metadata with
              status := some "PARTIAL_RESULTS_DUE_TO_INTERRUPTION" } ∧
        (savePartialOutput f now g.currentResults).results = g.currentResults) ∧
    (∀ (g : GlobalState) (now : String), g.isShuttingDown = false →
      g.currentResults.length = 0 → (gracefulShutdown g now).1 = .exitNoSave 0) := by
  refine ⟨?_, ?_, ?_, ?_⟩
  · intro g now h
    unfold gracefulShutdown
    rw [if_pos h]
  · intro g now h
    unfold gracefulShutdown
    rw [if_neg (by simp [h])]
    cases g.currentFinder with
    | none => rfl
    | some f =>
      dsimp only
      split <;> rfl
  · intro g now f h hf hres
    unfold gracefulShutdown
    rw [if_neg (by simp [h]), hf]
    dsimp only
    rw [if_pos hres]
    exact ⟨rfl, strIncludes_partialFilename f.modelKey now, rfl, rfl⟩
  · intro g now h hres
    unfold gracefulShutdown
    rw [if_neg (by simp [h])]
    cases g.currentFinder with
    | none => rfl
    | some f =>
      dsimp only
      rw [if_neg (by omega)]

/-- A concrete finder and one accumulated record for the C7 witness. -/
def finderW : FinderInfo :=
  { modelKey := "gpt-4o-mini", modelName := "openai/gpt-4o-mini:online", tokenUsage := initUsage }

/-- One concrete accumulated Result Record. -/
def resultW : JVal := errorRecord "Acme" "gpt-4o-mini" "T0" "boom"

/-- The concrete global state of the C7 witness. -/
def gW : GlobalState :=
  { isShuttingDown := false, currentResults := [resultW], currentFinder := some finderW }

/-- Witness for C7: a first signal over one accumulated record saves the
partial Run Record (marker in filename, status set, statistics equal to
the normal save's) and exits 0. -/
theorem c7_graceful_shutdown_state_machine_witness :
    (gracefulShutdown gW "TS").1 = .savePartialAndExit (partialFilename finderW.modelKey "TS")
        (savePartialOutput finderW "TS" gW.currentResults) 0 ∧
      strIncludes (partialFilename finderW.modelKey "TS") "_PARTIAL_" = true ∧
      (savePartialOutput finderW "TS" gW.currentResults).metadata =
        { (saveResultsOutput finderW.modelKey finderW.modelName "TS" finderW.tokenUsage
            gW.currentResults).metadata with
            status := some "PARTIAL_RESULTS_DUE_TO_INTERRUPTION" } ∧
      (savePartialOutput finderW "TS" gW.currentResults).results = gW.currentResults :=
  c7_graceful_shutdown_state_machine.2.2.1 gW "TS" finderW rfl rfl (by decide)

/-- The concrete batch environment of the C8 counterexample. -/
def envC8 : BatchEnv :=
  { P := jsonParseObj, modelKey := "gpt-4o-mini",
    fetchAt := fun _ => .ok respDataGood, nowAt := fun _ => "T0" }

/-- Counterexample to C8 as stated: two brands are sliced; the signal
arrives while the request for slice index 1 is in flight.  The claim
says the in-flight request completes and its Result Record is included
in what is persisted (two records); but the handler saves and exits the
process immediately, so the partial file holds exactly one record — the
in-flight request is abandoned. -/
theorem c8_counterexample_inflight_record_dropped :
    (brandsSlice ["Acme", "Benchmade"] 0 2).length = 2 ∧
    ((runWithSignal envC8 "openai/gpt-4o-mini:online" ["Acme", "Benchmade"] 0 2 initUsage
        (some (.duringRequest 1)) "TS" "TF").partialSave.map
          fun p => p.2.results.length) = some 1 ∧
    (runWithSignal envC8 "openai/gpt-4o-mini:online" ["Acme", "Benchmade"] 0 2 initUsage
        (some (.duringRequest 1)) "TS" "TF").finalSave = none ∧
    (runWithSignal envC8 "openai/gpt-4o-mini:online" ["Acme", "Benchmade"] 0 2 initUsage
        (some (.duringRequest 1)) "TS" "TF").exitCode = 0 :=
  ⟨rfl, rfl, rfl, rfl⟩

/-- **C8 (amended)**: the shutdown flag is consulted only at
loop-iteration boundaries and before the inter-request delay, but the
signal handler itself saves and exits the process from within the
await: a signal arriving during the request of slice index `k` persists
exactly the `k` records of the previously completed iterations — the
in-flight request is abandoned and its Result Record is NOT included —
and the process exits 0 (with `k = 0`, nothing is saved). -/
theorem c8_amended_inflight_request_abandoned (env : BatchEnv) (modelName : String)
    (brands : List String) (S C : Nat) (st : TokenUsageState) (k : Nat)
    (nowSig nowFinal : String) (hk : k < (brandsSlice brands S C).length) :
    (0 < k →
      (runWithSignal env modelName brands S C st (some (.duringRequest k)) nowSig
          nowFinal).partialSave =
        some (partialFilename env.modelKey nowSig,
          savePartialOutput
            { modelKey := env.modelKey, modelName := modelName,
              tokenUsage := (runPrefix env st ((brandsSlice brands S C).take k)).2 } nowSig
            (runPrefix env st ((brandsSlice brands S C).take k)).1) ∧
      ((runWithSignal env modelName brands S C st (some (.duringRequest k)) nowSig
          nowFinal).partialSave.map fun p => p.2.results.length) = some k) ∧
    (k = 0 →
      (runWithSignal env modelName brands S C st (some (.duringRequest k)) nowSig
        nowFinal).partialSave = none) ∧
    (runWithSignal env modelName brands S C st (some (.duringRequest k)) nowSig
      nowFinal).finalSave = none ∧
    (runWithSignal env modelName brands S C st (some (.duringRequest k)) nowSig
      nowFinal).exitCode = 0 := by
  have hlen : (runPrefix env st ((brandsSlice brands S C).take k)).1.length = k := by
    unfold runPrefix
    rw [runLoop_no_flag_length]
    simp only [List.length_take]
    omega
  simp only [runWithSignal]
  rw [if_pos hk]
  simp only [gracefulShutdown]
  rw [if_neg (by simp)]
  rw [hlen]
  by_cases hk0 : 0 < k
  · rw [if_pos hk0]
    refine ⟨fun _ => ⟨rfl, ?_⟩, fun h0 => by omega, rfl, rfl⟩
    simp [savePartialOutput, hlen]
  · rw [if_neg hk0]
    exact ⟨fun h => absurd h hk0, fun _ => rfl, rfl, rfl⟩

/-- Witness for C8 (amended): the `0 < k` clause at the concrete
two-brand run with the signal during request 1. -/
theorem c8_amended_inflight_request_abandoned_witness :
    ((runWithSignal envC8 "openai/gpt-4o-mini:online" ["Acme", "Benchmade"] 0 2 initUsage
        (some (.duringRequest 1)) "TS" "TF").partialSave.map
          fun p => p.2.results.length) = some 1 :=
  ((c8_amended_inflight_request_abandoned envC8 "openai/gpt-4o-mini:online"
    ["Acme", "Benchmade"] 0 2 initUsage 1 "TS" "TF" (by decide)).1 (by decide)).2

end KnifeBrands
